import Mathlib

/-!
Shallow embedding of the Reservation Conflict & Lifecycle Engine of the
Car_Rental repository: the rental-handling part of
`server/controllers/employeeController.js` (`createRental`, `updateRental`,
`deleteRental`) together with the schema-level validation of
`server/models/Rental.js` and the car-status data of `server/models/Car.js`.

Modelling conventions:
- Timestamps are integers counting hours; `dayOf` is the floor to whole
  days, mirroring `new Date(y, m, d)` truncation of a JS `Date` to local
  midnight.  All raw comparisons (`end <= start`, the Mongo range
  operators) compare the full timestamp, exactly as the source compares
  full `Date` values.
- Mongo ObjectIds are modelled as `Nat`; the syntactic
  `isValidObjectId` format checks of the controller are outside the model
  (every `Nat` is a well-formed id), as is the `Invalid date format`
  check (every integer is a valid timestamp).
- `totalCost` of a create request is modelled as a present `Int` (the
  schema marks it required); the controller rejects a negative value
  before any date validation, which the model reproduces.
- The document store is a list of rentals plus a list of cars; `nextId`
  supplies the fresh `_id` used by an insert.  `Rental.create(req.body)`
  is modelled for the documented create-request shape (no client-supplied
  `status`), so a new rental starts `active` (the schema default).
- The source performs a separate overlap query followed by an
  unconditional write; the model keeps that structure explicit as
  `createCheck` (all validations, ending with the overlap query) followed
  by `createCommitState` (the unconditional insert), with `createRental`
  their sequential composition.
-/

/-- Lifecycle status of a rental, from the `status` enum of
`server/models/Rental.js` (`active`, `completed`, `cancelled`). -/
inductive RStatus where
  | active
  | completed
  | cancelled
deriving DecidableEq, Repr

/-- Car availability flag, from the `status` enum of
`server/models/Car.js` (`available`, `maintenance`). -/
inductive CarStatus where
  | available
  | maintenance
deriving DecidableEq, Repr

/-- A car document: identity plus the availability flag (the only fields
the rental engine reads). -/
structure Car where
  id : Nat
  status : CarStatus
deriving DecidableEq, Repr

/-- A rental document, per the schema of `server/models/Rental.js`. -/
structure Rental where
  id : Nat
  car : Nat
  client : Nat
  employee : Nat
  startDate : Int
  endDate : Int
  totalCost : Int
  status : RStatus
deriving DecidableEq, Repr

/-- The document store visible to the engine: the `cars` and `rentals`
collections, plus the next fresh `_id`. -/
structure DB where
  cars : List Car
  rentals : List Rental
  nextId : Nat
deriving DecidableEq, Repr

/-- Body of `POST /api/rentals` (see `createRental` in
`employeeController.js`): car, client, employee, interval, cost. -/
structure CreateReq where
  car : Nat
  client : Nat
  employee : Nat
  startDate : Int
  endDate : Int
  totalCost : Int
deriving DecidableEq, Repr

/-- Body of `PUT /api/rentals/:id` (see `updateRental`): a partial patch
of the rental fields, each field optional. -/
structure UpdateReq where
  car : Option Nat
  client : Option Nat
  employee : Option Nat
  startDate : Option Int
  endDate : Option Int
  totalCost : Option Int
  status : Option RStatus
deriving DecidableEq, Repr

/-- Error outcomes of the engine, one per distinct rejection site in
`createRental` / `updateRental` (within the modelled scope). -/
inductive Err where
  | invalidCost
  | pastStartDate
  | endNotAfterStart
  | carNotFound
  | carInMaintenance
  | conflict
  | rentalNotFound
deriving DecidableEq, Repr

/-- Timestamps are hours; a calendar day is its floor by 24, mirroring
`new Date(d.getFullYear(), d.getMonth(), d.getDate())`. -/
def dayOf (t : Int) : Int := Int.fdiv t 24

/-- The spec groups the date-validation failures (`malformed/past/inverted
dates`) under the single kind `InvalidInterval`. -/
def isInvalidInterval : Err → Bool
  | Err.pastStartDate => true
  | Err.endNotAfterStart => true
  | _ => false

/-- The three-branch `$or` condition of the Mongo overlap query in
`createRental` (lines 301-312) and `updateRental` (lines 391-400), on the
raw endpoints: existing interval `[rs, re]` against candidate `[s, e]`. -/
def overlapClause (rs re s e : Int) : Bool :=
  (rs ≤ s && s ≤ re) || (rs ≤ e && e ≤ re) || (s ≤ rs && re ≤ e)

/-- The overlap query condition applied to a stored rental. -/
def overlapsQuery (s e : Int) (r : Rental) : Bool :=
  overlapClause r.startDate r.endDate s e

/-- The single closed-interval overlap predicate named by the spec's
refinement claim: `existing.startDate <= end AND existing.endDate >= start`.
(Stated from the spec's words, for comparison with `overlapClause`.) -/
def closedOverlapSpec (rs re s e : Int) : Bool :=
  rs ≤ e && s ≤ re

/-- `Car.findById`. -/
def findCar (db : DB) (carId : Nat) : Option Car :=
  db.cars.find? (fun c => c.id == carId)

/-- `Rental.findById`. -/
def findRental (db : DB) (rentalId : Nat) : Option Rental :=
  db.rentals.find? (fun r => r.id == rentalId)

/-- The `Rental.find` conflict query: rentals on `carId` with status
`active` matching the three-branch overlap condition, optionally excluding
one id (`_id: { $ne: ... }` in `updateRental`). -/
def findOverlapping (db : DB) (carId : Nat) (s e : Int)
    (excludeId : Option Nat) : List Rental :=
  db.rentals.filter (fun r =>
    (match excludeId with
     | none => true
     | some i => r.id != i) &&
    r.car == carId && r.status == RStatus.active && overlapsQuery s e r)

/-- The validation phase of `createRental` (lines 246-318), in source
order: cost, past start day, inverted interval, car existence, car
maintenance, overlap query.  Returns the rejection, if any. -/
def createCheck (db : DB) (req : CreateReq) (today : Int) : Option Err :=
  if req.totalCost < 0 then some Err.invalidCost
  else if dayOf req.startDate < today then some Err.pastStartDate
  else if req.endDate ≤ req.startDate then some Err.endNotAfterStart
  else
    match findCar db req.car with
    | none => some Err.carNotFound
    | some car =>
      if car.status = CarStatus.maintenance then some Err.carInMaintenance
      else if 0 < (findOverlapping db req.car req.startDate req.endDate
          none).length then some Err.conflict
      else none

/-- The document `Rental.create` inserts: fresh `_id`, the request
fields, status `active` (schema default). -/
def mkRental (db : DB) (req : CreateReq) : Rental :=
  { id := db.nextId, car := req.car, client := req.client,
    employee := req.employee, startDate := req.startDate,
    endDate := req.endDate, totalCost := req.totalCost,
    status := RStatus.active }

/-- The unconditional write phase of `createRental` (line 321): insert
the new rental document.  In the source this is a separate awaited store
operation, not guarded by the query of `createCheck`. -/
def createCommitState (db : DB) (req : CreateReq) : DB :=
  { db with
    rentals := db.rentals ++ [mkRental db req]
    nextId := db.nextId + 1 }

/-- `createRental`: the check phase followed, on success, by the write
phase, executed sequentially on the same store snapshot. -/
def createRental (db : DB) (req : CreateReq) (today : Int) :
    Except Err (DB × Rental) :=
  match createCheck db req today with
  | some e => Except.error e
  | none => Except.ok (createCommitState db req, mkRental db req)

/-- Apply an update patch to a rental document, field by field
(`findByIdAndUpdate` with the request body). -/
def applyPatch (p : UpdateReq) (r : Rental) : Rental :=
  { r with
    car := p.car.getD r.car,
    client := p.client.getD r.client,
    employee := p.employee.getD r.employee,
    startDate := p.startDate.getD r.startDate,
    endDate := p.endDate.getD r.endDate,
    totalCost := p.totalCost.getD r.totalCost,
    status := p.status.getD r.status }

/-- The store after `findByIdAndUpdate`: the document with the given
`_id` patched, all others untouched. -/
def applyUpdateState (db : DB) (rentalId : Nat) (p : UpdateReq) : DB :=
  { db with rentals := db.rentals.map (fun r =>
      if r.id = rentalId then applyPatch p r else r) }

/-- The commit of `updateRental`: `findByIdAndUpdate` with the
`pre findOneAndUpdate` hook of `Rental.js`, which rejects only when the
patch carries BOTH dates with `endDate <= startDate`. -/
def commitUpdate (db : DB) (rentalId : Nat) (p : UpdateReq)
    (oldRental : Rental) : Except Err (DB × Rental) :=
  match p.startDate, p.endDate with
  | some s, some e =>
    if e ≤ s then Except.error Err.endNotAfterStart
    else Except.ok (applyUpdateState db rentalId p, applyPatch p oldRental)
  | _, _ => Except.ok (applyUpdateState db rentalId p, applyPatch p oldRental)

/-- The date-validation block of `updateRental` (lines 359-407), run only
when the patch supplies `startDate` or `endDate`: past start day (only for
an `active` rental), inverted interval, overlap query against the target
car with the rental's own id excluded. -/
def updateDatesCheck (db : DB) (rentalId : Nat) (p : UpdateReq)
    (oldRental : Rental) (today : Int) : Option Err :=
  if p.startDate.isSome || p.endDate.isSome then
    let s := p.startDate.getD oldRental.startDate
    let e := p.endDate.getD oldRental.endDate
    if oldRental.status = RStatus.active ∧ dayOf s < today then
      some Err.pastStartDate
    else if e ≤ s then some Err.endNotAfterStart
    else if 0 < (findOverlapping db (p.car.getD oldRental.car) s e
        (some rentalId)).length then some Err.conflict
    else none
  else none

/-- The cost validation of `updateRental` (lines 410-414): fails only
when a `totalCost` is supplied and negative. -/
def costBad : Option Int → Bool
  | some v => decide (v < 0)
  | none => false

/-- `updateRental` (lines 339-465), in source order: load the rental,
date block (when a date is supplied), cost validation, car
existence/maintenance check (only when the patch changes the car), then
the unconditional `findByIdAndUpdate` write. -/
def updateRental (db : DB) (rentalId : Nat) (p : UpdateReq) (today : Int) :
    Except Err (DB × Rental) :=
  match findRental db rentalId with
  | none => Except.error Err.rentalNotFound
  | some oldRental =>
    match updateDatesCheck db rentalId p oldRental today with
    | some e => Except.error e
    | none =>
      if costBad p.totalCost then Except.error Err.invalidCost
      else
        match p.car with
        | some c =>
          if c ≠ oldRental.car then
            match findCar db c with
            | none => Except.error Err.carNotFound
            | some car =>
              if car.status = CarStatus.maintenance then
                Except.error Err.carInMaintenance
              else commitUpdate db rentalId p oldRental
          else commitUpdate db rentalId p oldRental
        | none => commitUpdate db rentalId p oldRental

/-- `deleteRental` (lines 469-493): `findByIdAndDelete`, removing the
document with the given `_id` (unique in the store). -/
def deleteRental (db : DB) (rentalId : Nat) : Except Err (DB × Rental) :=
  match findRental db rentalId with
  | none => Except.error Err.rentalNotFound
  | some r =>
    let db2 : DB :=
      { db with rentals := db.rentals.filter (fun x => x.id != rentalId) }
    Except.ok (db2, r)

/-- The spec's overlap relation on two bookings:
`B1.start < B2.end AND B2.start < B1.end`. -/
def strictOverlap (b1 b2 : Rental) : Prop :=
  b1.startDate < b2.endDate ∧ b2.startDate < b1.endDate

/-- The engine's invariant: no two distinct ACTIVE bookings on the same
car have overlapping intervals (spec sense of overlap). -/
def conflictFree (db : DB) : Prop :=
  db.rentals.Pairwise (fun b1 b2 =>
    b1.car = b2.car → b1.status = RStatus.active →
    b2.status = RStatus.active → ¬ strictOverlap b1 b2)

/-- Store well-formedness: `_id` values are pairwise distinct (Mongo's
`_id` uniqueness) and `nextId` is fresh. -/
def wfDB (db : DB) : Prop :=
  db.rentals.Pairwise (fun a b => a.id ≠ b.id) ∧
  ∀ r ∈ db.rentals, r.id < db.nextId

instance (b1 b2 : Rental) : Decidable (strictOverlap b1 b2) := by
  unfold strictOverlap; infer_instance

instance (db : DB) : Decidable (conflictFree db) := by
  unfold conflictFree; infer_instance

instance (db : DB) : Decidable (wfDB db) := by
  unfold wfDB; infer_instance

/-- The three-branch query condition agrees with the single
closed-interval comparison whenever the stored interval is ordered. -/
lemma overlapClause_iff_closed (rs re s e : Int) (h : rs ≤ re)
    (h2 : s ≤ e) : overlapClause rs re s e = true ↔ (rs ≤ e ∧ s ≤ re) := by
  unfold overlapClause
  simp only [Bool.or_eq_true, Bool.and_eq_true, decide_eq_true_eq]
  omega

/-- A strict (spec-sense) overlap always triggers the query condition. -/
lemma strict_implies_clause (rs re s e : Int) (h1 : rs < e) (h2 : s < re) :
    overlapClause rs re s e = true := by
  unfold overlapClause
  simp only [Bool.or_eq_true, Bool.and_eq_true, decide_eq_true_eq]
  omega

/-- In a list whose ids are pairwise distinct, two members with equal id
are the same element. -/
lemma eq_of_mem_of_id_eq {l : List Rental} {x y : Rental}
    (hp : l.Pairwise (fun a b => a.id ≠ b.id))
    (hx : x ∈ l) (hy : y ∈ l) (h : x.id = y.id) : x = y := by
  induction l with
  | nil => cases hx
  | cons a t ih =>
    rcases List.pairwise_cons.mp hp with ⟨ha, ht⟩
    rcases List.mem_cons.mp hx with hx1 | hx1 <;>
      rcases List.mem_cons.mp hy with hy1 | hy1
    · exact hx1.trans hy1.symm
    · exact absurd h (hx1 ▸ ha y hy1)
    · exact absurd h.symm (hy1 ▸ ha x hx1)
    · exact ih ht hx1 hy1

lemma createRental_error_iff (db : DB) (req : CreateReq) (today : Int)
    (err : Err) : createRental db req today = Except.error err ↔
      createCheck db req today = some err := by
  unfold createRental
  cases h : createCheck db req today <;> simp

lemma createRental_ok_iff (db : DB) (req : CreateReq) (today : Int)
    (x : DB × Rental) : createRental db req today = Except.ok x ↔
      createCheck db req today = none ∧
      x = (createCommitState db req, mkRental db req) := by
  unfold createRental
  cases h : createCheck db req today <;> simp [eq_comm]

lemma createCheck_none_iff (db : DB) (req : CreateReq) (today : Int) :
    createCheck db req today = none ↔
      (0 ≤ req.totalCost ∧ today ≤ dayOf req.startDate ∧
       req.startDate < req.endDate ∧
       (∃ car, findCar db req.car = some car ∧
         car.status ≠ CarStatus.maintenance) ∧
       findOverlapping db req.car req.startDate req.endDate none = []) := by
  unfold createCheck
  cases hcar : findCar db req.car with
  | none => split_ifs <;> simp_all
  | some car =>
    split_ifs <;> simp_all [List.length_pos, List.length_eq_zero] <;>
      split_ifs <;> simp_all

lemma createCheck_conflict_iff (db : DB) (req : CreateReq) (today : Int) :
    createCheck db req today = some Err.conflict ↔
      (0 ≤ req.totalCost ∧ today ≤ dayOf req.startDate ∧
       req.startDate < req.endDate ∧
       (∃ car, findCar db req.car = some car ∧
         car.status ≠ CarStatus.maintenance) ∧
       findOverlapping db req.car req.startDate req.endDate none ≠ []) := by
  unfold createCheck
  cases hcar : findCar db req.car with
  | none => split_ifs <;> simp_all
  | some car =>
    split_ifs <;> simp_all [List.length_pos, List.length_eq_zero] <;>
      split_ifs <;> simp_all

lemma createCheck_past_iff (db : DB) (req : CreateReq) (today : Int) :
    createCheck db req today = some Err.pastStartDate ↔
      (0 ≤ req.totalCost ∧ dayOf req.startDate < today) := by
  unfold createCheck
  cases hcar : findCar db req.car with
  | none => split_ifs <;> simp_all
  | some car => split_ifs <;> simp_all <;> split_ifs <;> simp_all

lemma createCheck_inverted_iff (db : DB) (req : CreateReq) (today : Int) :
    createCheck db req today = some Err.endNotAfterStart ↔
      (0 ≤ req.totalCost ∧ today ≤ dayOf req.startDate ∧
       req.endDate ≤ req.startDate) := by
  unfold createCheck
  cases hcar : findCar db req.car with
  | none => split_ifs <;> simp_all
  | some car => split_ifs <;> simp_all <;> split_ifs <;> simp_all

lemma findOverlapping_nil_none {db : DB} {carId : Nat} {s e : Int}
    (h : findOverlapping db carId s e none = []) {r : Rental}
    (hr : r ∈ db.rentals) (hcar : r.car = carId)
    (hst : r.status = RStatus.active) : overlapsQuery s e r = false := by
  have := List.filter_eq_nil_iff.mp h r hr
  simp [hcar, hst] at this
  simpa using this

lemma findOverlapping_nil_some {db : DB} {carId : Nat} {s e : Int}
    {i : Nat} (h : findOverlapping db carId s e (some i) = []) {r : Rental}
    (hr : r ∈ db.rentals) (hid : r.id ≠ i) (hcar : r.car = carId)
    (hst : r.status = RStatus.active) : overlapsQuery s e r = false := by
  have := List.filter_eq_nil_iff.mp h r hr
  simp [hcar, hst, hid] at this
  simpa using this

lemma findOverlapping_ne_nil_none {db : DB} {carId : Nat} {s e : Int}
    {r : Rental} (hr : r ∈ db.rentals) (hcar : r.car = carId)
    (hst : r.status = RStatus.active) (hov : overlapsQuery s e r = true) :
    findOverlapping db carId s e none ≠ [] := by
  exact List.ne_nil_of_mem
    (List.mem_filter.mpr ⟨hr, by simp [hcar, hst, hov]⟩)

lemma findOverlapping_ne_nil_some {db : DB} {carId : Nat} {s e : Int}
    {i : Nat} {r : Rental} (hr : r ∈ db.rentals) (hid : r.id ≠ i)
    (hcar : r.car = carId) (hst : r.status = RStatus.active)
    (hov : overlapsQuery s e r = true) :
    findOverlapping db carId s e (some i) ≠ [] := by
  exact List.ne_nil_of_mem
    (List.mem_filter.mpr ⟨hr, by simp [hcar, hst, hov, hid]⟩)

lemma findOverlapping_nil_of_no_active {db : DB} {carId : Nat} {s e : Int}
    (h : ∀ r ∈ db.rentals, r.car = carId → r.status = RStatus.active →
      overlapsQuery s e r = false) :
    findOverlapping db carId s e none = [] := by
  apply List.filter_eq_nil_iff.mpr
  intro r hr
  by_cases hcar : r.car = carId
  · by_cases hst : r.status = RStatus.active
    · simp [hcar, hst, h r hr hcar hst]
    · simp [hcar, hst]
  · simp [hcar]

lemma findOverlapping_exists_none {db : DB} {carId : Nat} {s e : Int}
    (h : findOverlapping db carId s e none ≠ []) :
    ∃ r ∈ db.rentals, r.car = carId ∧ r.status = RStatus.active ∧
      overlapsQuery s e r = true := by
  rcases List.exists_mem_of_ne_nil _ h with ⟨r, hr⟩
  rcases List.mem_filter.mp hr with ⟨hmem, hpred⟩
  simp only [Bool.and_eq_true, beq_iff_eq, true_and,
    show ((true : Bool) = true) = True from by simp] at hpred
  exact ⟨r, hmem, hpred.1.1, hpred.1.2, hpred.2⟩

lemma findOverlapping_exists_some {db : DB} {carId : Nat} {s e : Int}
    {i : Nat} (h : findOverlapping db carId s e (some i) ≠ []) :
    ∃ r ∈ db.rentals, r.id ≠ i ∧ r.car = carId ∧
      r.status = RStatus.active ∧ overlapsQuery s e r = true := by
  rcases List.exists_mem_of_ne_nil _ h with ⟨r, hr⟩
  rcases List.mem_filter.mp hr with ⟨hmem, hpred⟩
  simp only [Bool.and_eq_true, beq_iff_eq, bne_iff_ne, ne_eq] at hpred
  exact ⟨r, hmem, hpred.1.1.1, hpred.1.1.2, hpred.1.2, hpred.2⟩

lemma updateDatesCheck_conflict_iff (db : DB) (rid : Nat) (p : UpdateReq)
    (old : Rental) (today : Int)
    (hd : (p.startDate.isSome || p.endDate.isSome) = true)
    (hpast : ¬(old.status = RStatus.active ∧
      dayOf (p.startDate.getD old.startDate) < today))
    (hse : p.startDate.getD old.startDate < p.endDate.getD old.endDate) :
    updateDatesCheck db rid p old today = some Err.conflict ↔
      findOverlapping db (p.car.getD old.car)
        (p.startDate.getD old.startDate) (p.endDate.getD old.endDate)
        (some rid) ≠ [] := by
  unfold updateDatesCheck
  simp only [hd, if_true]
  rw [if_neg hpast, if_neg (by omega)]
  split_ifs with h1 <;> simp_all [List.length_pos]

lemma updateDatesCheck_none_inv {db : DB} {rid : Nat} {p : UpdateReq}
    {old : Rental} {today : Int}
    (hd : (p.startDate.isSome || p.endDate.isSome) = true)
    (h : updateDatesCheck db rid p old today = none) :
    p.startDate.getD old.startDate < p.endDate.getD old.endDate ∧
    findOverlapping db (p.car.getD old.car)
      (p.startDate.getD old.startDate) (p.endDate.getD old.endDate)
      (some rid) = [] := by
  unfold updateDatesCheck at h
  simp only [hd, if_true] at h
  split_ifs at h with h1 h2 h3 <;>
    simp_all [List.length_pos, List.length_eq_zero] <;> omega

lemma updateRental_ok_inv {db : DB} {rid : Nat} {p : UpdateReq}
    {today : Int} {db' : DB} {r' : Rental}
    (h : updateRental db rid p today = Except.ok (db', r')) :
    ∃ old, findRental db rid = some old ∧
      updateDatesCheck db rid p old today = none ∧
      db' = applyUpdateState db rid p ∧ r' = applyPatch p old := by
  unfold updateRental at h
  cases hf : findRental db rid with
  | none => rw [hf] at h; simp at h
  | some old =>
    simp only [hf] at h
    refine ⟨old, rfl, ?_⟩
    cases hdc : updateDatesCheck db rid p old today with
    | some e => simp only [hdc] at h; simp at h
    | none =>
      simp only [hdc] at h
      refine ⟨rfl, ?_⟩
      unfold commitUpdate at h
      repeat' split at h
      all_goals simp_all
      all_goals exact ⟨h.1.symm, h.2.symm⟩

lemma updateRental_error_conflict_iff (db : DB) (rid : Nat) (p : UpdateReq)
    (today : Int) :
    updateRental db rid p today = Except.error Err.conflict ↔
      ∃ old, findRental db rid = some old ∧
        updateDatesCheck db rid p old today = some Err.conflict := by
  unfold updateRental
  cases hf : findRental db rid with
  | none => simp
  | some old =>
    cases hdc : updateDatesCheck db rid p old today with
    | some e => cases e <;> simp_all
    | none =>
      simp only [hdc]
      constructor
      · intro h
        unfold commitUpdate at h
        repeat' split at h
        all_goals simp_all
      · rintro ⟨o, ho, hc⟩
        simp_all

lemma updateRental_error_past_iff (db : DB) (rid : Nat) (p : UpdateReq)
    (today : Int) :
    updateRental db rid p today = Except.error Err.pastStartDate ↔
      ∃ old, findRental db rid = some old ∧
        updateDatesCheck db rid p old today = some Err.pastStartDate := by
  unfold updateRental
  cases hf : findRental db rid with
  | none => simp
  | some old =>
    cases hdc : updateDatesCheck db rid p old today with
    | some e => cases e <;> simp_all
    | none =>
      simp only [hdc]
      constructor
      · intro h
        unfold commitUpdate at h
        repeat' split at h
        all_goals simp_all
      · rintro ⟨o, ho, hc⟩
        simp_all

lemma updateDatesCheck_today_indep {db : DB} {rid : Nat} {p : UpdateReq}
    {old : Rental} (hst : old.status ≠ RStatus.active) (t t' : Int) :
    updateDatesCheck db rid p old t = updateDatesCheck db rid p old t' := by
  unfold updateDatesCheck
  split_ifs <;> simp_all

lemma updateRental_today_indep {db : DB} {rid : Nat} {p : UpdateReq}
    {old : Rental} (hf : findRental db rid = some old)
    (hst : old.status ≠ RStatus.active) (t t' : Int) :
    updateRental db rid p t = updateRental db rid p t' := by
  unfold updateRental
  simp only [hf]
  rw [updateDatesCheck_today_indep hst t t']

lemma conflictFree_create {db : DB} {req : CreateReq} {today : Int}
    {db' : DB} {r : Rental}
    (hwf : wfDB db) (hcf : conflictFree db)
    (h : createRental db req today = Except.ok (db', r)) :
    conflictFree db' ∧ wfDB db' := by
  rcases (createRental_ok_iff db req today _).mp h with ⟨hchk, hx⟩
  simp only [Prod.mk.injEq] at hx
  obtain ⟨hdb', -⟩ := hx
  subst hdb'
  rcases (createCheck_none_iff db req today).mp hchk with
    ⟨-, -, -, -, hov⟩
  refine ⟨?_, ?_, ?_⟩
  · show (db.rentals ++ [mkRental db req]).Pairwise _
    refine List.pairwise_append.mpr ⟨hcf, List.pairwise_singleton _ _, ?_⟩
    intro a ha b hb
    simp only [List.mem_singleton] at hb
    subst hb
    intro hcar hact1 hact2 hstr
    have hq : overlapsQuery req.startDate req.endDate a = true := by
      unfold overlapsQuery
      refine strict_implies_clause _ _ _ _ ?_ ?_
      · simpa [mkRental] using hstr.1
      · simpa [mkRental] using hstr.2
    have hcar' : a.car = req.car := by simpa [mkRental] using hcar
    have := findOverlapping_nil_none hov ha hcar' hact1
    simp [hq] at this
  · show (db.rentals ++ [mkRental db req]).Pairwise _
    refine List.pairwise_append.mpr ⟨hwf.1, List.pairwise_singleton _ _, ?_⟩
    intro a ha b hb
    simp only [List.mem_singleton] at hb
    subst hb
    have := hwf.2 a ha
    simp only [mkRental]
    omega
  · intro x hx
    rcases List.mem_append.mp hx with hx1 | hx1
    · have := hwf.2 x hx1
      simp only [createCommitState]
      omega
    · simp only [List.mem_singleton] at hx1
      subst hx1
      simp [createCommitState, mkRental]

lemma conflictFree_delete {db : DB} {rid : Nat} {db' : DB} {r : Rental}
    (hwf : wfDB db) (hcf : conflictFree db)
    (h : deleteRental db rid = Except.ok (db', r)) :
    conflictFree db' ∧ wfDB db' := by
  unfold deleteRental at h
  cases hf : findRental db rid with
  | none => rw [hf] at h; simp at h
  | some old =>
    simp only [hf, Except.ok.injEq, Prod.mk.injEq] at h
    obtain ⟨hdb', -⟩ := h
    subst hdb'
    have hsub : (db.rentals.filter fun x => x.id != rid).Sublist
        db.rentals := List.filter_sublist db.rentals
    refine ⟨hcf.sublist hsub, hwf.1.sublist hsub, ?_⟩
    intro x hx
    exact hwf.2 x (List.mem_of_mem_filter hx)

lemma conflictFree_update_dates {db : DB} {rid : Nat} {p : UpdateReq}
    {today : Int} {db' : DB} {r' : Rental}
    (hwf : wfDB db) (hcf : conflictFree db)
    (hd : (p.startDate.isSome || p.endDate.isSome) = true)
    (h : updateRental db rid p today = Except.ok (db', r')) :
    conflictFree db' ∧ wfDB db' := by
  rcases updateRental_ok_inv h with ⟨old, hf, hdc, hdb', -⟩
  rcases updateDatesCheck_none_inv hd hdc with ⟨-, hov⟩
  have hold_mem : old ∈ db.rentals := List.mem_of_find?_eq_some hf
  have hold_id : old.id = rid := by
    have := List.find?_some hf
    simpa using this
  subst hdb'
  have hid_patch : ∀ x : Rental, (applyPatch p x).id = x.id := by
    intro x; simp [applyPatch]
  have hid_f : ∀ x : Rental,
      ((if x.id = rid then applyPatch p x else x) : Rental).id = x.id := by
    intro x
    by_cases hx : x.id = rid <;> simp [hx, hid_patch]
  refine ⟨?_, ?_, ?_⟩
  · show (db.rentals.map fun x =>
      if x.id = rid then applyPatch p x else x).Pairwise _
    rw [List.pairwise_map]
    refine (hcf.and hwf.1).imp_of_mem ?_
    intro a b ha hb hab
    obtain ⟨hRab, hne⟩ := hab
    by_cases hA : a.id = rid <;> by_cases hB : b.id = rid
    · exact absurd (hA.trans hB.symm) hne
    · -- a is the patched rental
      have haold : a = old := eq_of_mem_of_id_eq hwf.1 ha hold_mem
        (hA.trans hold_id.symm)
      subst haold
      simp only [hA, if_true, hB, if_false]
      intro hcar hact1 hact2 hstr
      have hbcar : b.car = p.car.getD a.car := by
        simpa [applyPatch] using hcar.symm
      have hq : overlapsQuery (p.startDate.getD a.startDate)
          (p.endDate.getD a.endDate) b = true := by
        unfold overlapsQuery
        refine strict_implies_clause _ _ _ _ ?_ ?_
        · have := hstr.2
          simpa [applyPatch] using this
        · have := hstr.1
          simpa [applyPatch] using this
      have := findOverlapping_nil_some hov hb (by omega) hbcar hact2
      simp [hq] at this
    · -- b is the patched rental
      have hbold : b = old := eq_of_mem_of_id_eq hwf.1 hb hold_mem
        (hB.trans hold_id.symm)
      subst hbold
      simp only [hB, if_true, hA, if_false]
      intro hcar hact1 hact2 hstr
      have hacar : a.car = p.car.getD b.car := by
        simpa [applyPatch] using hcar
      have hq : overlapsQuery (p.startDate.getD b.startDate)
          (p.endDate.getD b.endDate) a = true := by
        unfold overlapsQuery
        refine strict_implies_clause _ _ _ _ ?_ ?_
        · have := hstr.1
          simpa [applyPatch] using this
        · have := hstr.2
          simpa [applyPatch] using this
      have := findOverlapping_nil_some hov ha (by omega) hacar hact1
      simp [hq] at this
    · simp only [hA, if_false, hB]
      exact hRab
  · show (db.rentals.map fun x =>
      if x.id = rid then applyPatch p x else x).Pairwise _
    rw [List.pairwise_map]
    refine hwf.1.imp ?_
    intro a b hab
    simpa [hid_f] using hab
  · intro x hx
    rcases List.mem_map.mp hx with ⟨y, hy, hyx⟩
    have : x.id = y.id := by rw [← hyx]; exact hid_f y
    rw [this]
    exact hwf.2 y hy

lemma updateRental_error_of_datesCheck {db : DB} {rid : Nat} {p : UpdateReq}
    {today : Int} {old : Rental} {err : Err}
    (hf : findRental db rid = some old)
    (hdc : updateDatesCheck db rid p old today = some err) :
    updateRental db rid p today = Except.error err := by
  unfold updateRental
  simp [hf, hdc]

lemma updateDatesCheck_conflict_inv {db : DB} {rid : Nat} {p : UpdateReq}
    {old : Rental} {today : Int}
    (h : updateDatesCheck db rid p old today = some Err.conflict) :
    findOverlapping db (p.car.getD old.car)
      (p.startDate.getD old.startDate) (p.endDate.getD old.endDate)
      (some rid) ≠ [] := by
  unfold updateDatesCheck at h
  by_cases hd : (p.startDate.isSome || p.endDate.isSome) = true
  · simp only [hd, if_true] at h
    split_ifs at h with h1 h2 h3 <;>
      simp_all [List.length_pos]
  · simp only [Bool.not_eq_true] at hd
    simp [hd] at h

/-- Claim C10: for every existing interval with ordered endpoints and
every ordered candidate interval, the three-branch disjunction used by
both conflict queries is logically equivalent to the single
closed-interval overlap predicate
`existing.startDate <= end AND existing.endDate >= start`. -/
theorem overlap_query_equiv_closed (rs re s e : Int)
    (h1 : rs ≤ re) (h2 : s ≤ e) :
    overlapClause rs re s e = true ↔ closedOverlapSpec rs re s e = true := by
  rw [overlapClause_iff_closed rs re s e h1 h2]
  unfold closedOverlapSpec
  simp [Bool.and_eq_true, decide_eq_true_eq]

/-- Witness for C10 at a concrete ordered pair of intervals. -/
theorem overlap_query_equiv_closed_witness :
    ((0 : Int) ≤ 10 ∧ (5 : Int) ≤ 20) ∧
      (overlapClause 0 10 5 20 = true ↔
        closedOverlapSpec 0 10 5 20 = true) :=
  ⟨⟨by decide, by decide⟩,
    overlap_query_equiv_closed 0 10 5 20 (by decide) (by decide)⟩

/-- Claim C2 counterexample: car 3 holds an ACTIVE booking on [0, 120];
the back-to-back candidate [120, 192] (start equal to the existing end)
is rejected with Conflict, not accepted as the claim states. -/
theorem back_to_back_rejected_cex :
    createRental ⟨[⟨3, CarStatus.available⟩],
        [⟨0, 3, 1, 1, 0, 120, 10, RStatus.active⟩], 1⟩
      ⟨3, 1, 1, 120, 192, 10⟩ 0 = Except.error Err.conflict := rfl

/-- Claim C2 (amended): the conflict query is closed-interval, so a
candidate that merely touches an existing ACTIVE booking's endpoint on
the same car (candidate start = existing end, or candidate end = existing
start) is rejected with Conflict whenever the earlier validations pass. -/
theorem boundary_touch_conflicts (db : DB) (req : CreateReq) (today : Int)
    (r : Rental) (car : Car)
    (hcost : 0 ≤ req.totalCost) (hpast : today ≤ dayOf req.startDate)
    (hse : req.startDate < req.endDate)
    (hcar : findCar db req.car = some car)
    (hav : car.status ≠ CarStatus.maintenance)
    (hr : r ∈ db.rentals) (hrcar : r.car = req.car)
    (hract : r.status = RStatus.active)
    (hord : r.startDate ≤ r.endDate)
    (htouch : r.endDate = req.startDate ∨ r.startDate = req.endDate) :
    createRental db req today = Except.error Err.conflict := by
  rw [createRental_error_iff, createCheck_conflict_iff]
  refine ⟨hcost, hpast, hse, ⟨car, hcar, hav⟩, ?_⟩
  refine findOverlapping_ne_nil_none hr hrcar hract ?_
  unfold overlapsQuery overlapClause
  simp only [Bool.or_eq_true, Bool.and_eq_true, decide_eq_true_eq]
  omega

/-- Witness for the amended C2 at a concrete back-to-back request. -/
theorem boundary_touch_conflicts_witness :
    createRental ⟨[⟨4, CarStatus.available⟩],
        [⟨0, 4, 1, 1, 24, 96, 5, RStatus.active⟩], 1⟩
      ⟨4, 2, 2, 96, 144, 5⟩ 0 = Except.error Err.conflict :=
  boundary_touch_conflicts
    ⟨[⟨4, CarStatus.available⟩], [⟨0, 4, 1, 1, 24, 96, 5, RStatus.active⟩], 1⟩
    ⟨4, 2, 2, 96, 144, 5⟩ 0 ⟨0, 4, 1, 1, 24, 96, 5, RStatus.active⟩
    ⟨4, CarStatus.available⟩ (by decide) (by decide) (by decide) rfl
    (by decide) (by decide) rfl rfl (by decide) (Or.inl rfl)

/-- Claim C5 counterexample: rental 4 is COMPLETED (a terminal state);
a status-only update to ACTIVE succeeds and changes the stored status,
instead of failing with InvalidTransition and leaving it unchanged. -/
theorem terminal_status_update_accepted_cex :
    updateRental ⟨[⟨7, CarStatus.available⟩],
        [⟨4, 7, 1, 1, 24, 48, 10, RStatus.completed⟩], 5⟩ 4
        ⟨none, none, none, none, none, none, some RStatus.active⟩ 9 =
      Except.ok (⟨[⟨7, CarStatus.available⟩],
          [⟨4, 7, 1, 1, 24, 48, 10, RStatus.active⟩], 5⟩,
        ⟨4, 7, 1, 1, 24, 48, 10, RStatus.active⟩) := rfl

/-- Claim C5 (amended): the engine enforces no lifecycle-transition
restriction: for any stored rental, a status-only update to any
enumerated status value succeeds and stores exactly that value. -/
theorem status_update_unrestricted (db : DB) (rid : Nat) (today : Int)
    (old : Rental) (st : RStatus)
    (hf : findRental db rid = some old) :
    updateRental db rid ⟨none, none, none, none, none, none, some st⟩
        today =
      Except.ok (applyUpdateState db rid
          ⟨none, none, none, none, none, none, some st⟩,
        applyPatch ⟨none, none, none, none, none, none, some st⟩ old) ∧
    (applyPatch ⟨none, none, none, none, none, none, some st⟩ old).status
      = st := by
  constructor
  · unfold updateRental updateDatesCheck commitUpdate costBad
    simp [hf]
  · simp [applyPatch]

/-- Witness for the amended C5: a CANCELLED rental set back to ACTIVE. -/
theorem status_update_unrestricted_witness :
    updateRental ⟨[⟨7, CarStatus.available⟩],
        [⟨2, 7, 1, 1, 24, 48, 10, RStatus.cancelled⟩], 3⟩ 2
        ⟨none, none, none, none, none, none, some RStatus.active⟩ 0 =
      Except.ok (applyUpdateState
          ⟨[⟨7, CarStatus.available⟩],
            [⟨2, 7, 1, 1, 24, 48, 10, RStatus.cancelled⟩], 3⟩ 2
          ⟨none, none, none, none, none, none, some RStatus.active⟩,
        applyPatch ⟨none, none, none, none, none, none, some RStatus.active⟩
          ⟨2, 7, 1, 1, 24, 48, 10, RStatus.cancelled⟩) ∧
    (applyPatch ⟨none, none, none, none, none, none, some RStatus.active⟩
      ⟨2, 7, 1, 1, 24, 48, 10, RStatus.cancelled⟩).status = RStatus.active :=
  status_update_unrestricted
    ⟨[⟨7, CarStatus.available⟩],
      [⟨2, 7, 1, 1, 24, 48, 10, RStatus.cancelled⟩], 3⟩ 2 0
    ⟨2, 7, 1, 1, 24, 48, 10, RStatus.cancelled⟩ RStatus.active rfl

/-- Claim C6 counterexample: a request whose start (hour 10) and end
(hour 12) fall on the same calendar day succeeds, although under
day-granular comparison the normalized endpoints would satisfy
`end <= start` and the engine's inverted-interval rule would reject it;
the inverted-interval check therefore compares raw timestamps. -/
theorem day_granularity_cex :
    createRental ⟨[⟨8, CarStatus.available⟩], [], 0⟩
        ⟨8, 1, 1, 10, 12, 5⟩ 0 =
      Except.ok (⟨[⟨8, CarStatus.available⟩],
          [⟨0, 8, 1, 1, 10, 12, 5, RStatus.active⟩], 1⟩,
        ⟨0, 8, 1, 1, 10, 12, 5, RStatus.active⟩) ∧
    dayOf 12 ≤ dayOf 10 := ⟨rfl, by decide⟩

/-- Claim C6 (amended): only the past-start check is day-granular (it
compares the floor of the start date with the server's current day); the
inverted-interval check compares the raw timestamps. -/
theorem date_comparison_granularity (db : DB) (req : CreateReq)
    (today : Int) (hcost : 0 ≤ req.totalCost) :
    (createRental db req today = Except.error Err.pastStartDate ↔
      dayOf req.startDate < today) ∧
    (today ≤ dayOf req.startDate →
      (createRental db req today = Except.error Err.endNotAfterStart ↔
        req.endDate ≤ req.startDate)) := by
  constructor
  · rw [createRental_error_iff, createCheck_past_iff]
    exact ⟨fun h => h.2, fun h => ⟨hcost, h⟩⟩
  · intro hp
    rw [createRental_error_iff, createCheck_inverted_iff]
    exact ⟨fun h => h.2.2, fun h => ⟨hcost, hp, h⟩⟩

/-- Witness for the amended C6: a start on an earlier calendar day is
rejected as past. -/
theorem date_comparison_granularity_witness :
    createRental ⟨[⟨8, CarStatus.available⟩], [], 0⟩
      ⟨8, 1, 1, 24, 72, 5⟩ 5 = Except.error Err.pastStartDate :=
  (date_comparison_granularity ⟨[⟨8, CarStatus.available⟩], [], 0⟩
    ⟨8, 1, 1, 24, 72, 5⟩ 5 (by decide)).1.mpr (by decide)

lemma updateDatesCheck_inverted (db : DB) (rid : Nat) {p : UpdateReq}
    {old : Rental} (today : Int)
    (hd : (p.startDate.isSome || p.endDate.isSome) = true)
    (hse : p.endDate.getD old.endDate ≤ p.startDate.getD old.startDate) :
    ∃ err, updateDatesCheck db rid p old today = some err ∧
      isInvalidInterval err = true := by
  unfold updateDatesCheck
  simp only [hd, if_true]
  split_ifs with h1 h2 h3
  · exact ⟨_, rfl, rfl⟩
  · exact ⟨_, rfl, rfl⟩
  all_goals omega

/-- Claim C7 counterexample: a create request with endDate (24) before
startDate (48) but a negative totalCost fails with the cost-validation
error, not with an InvalidInterval-class error, because the cost check
precedes the date checks in createRental. -/
theorem inverted_interval_error_kind_cex :
    createRental ⟨[⟨9, CarStatus.available⟩], [], 0⟩
        ⟨9, 1, 1, 48, 24, -5⟩ 0 = Except.error Err.invalidCost ∧
    (24 : Int) ≤ 48 ∧ isInvalidInterval Err.invalidCost = false :=
  ⟨rfl, by decide, rfl⟩

/-- Claim C7 (amended): provided the request's totalCost is non-negative,
a reservation with endDate <= startDate always fails with an
InvalidInterval-class error (past start day or inverted interval) before
any car or booking state is consulted, and an amendment supplying a date
whose effective interval satisfies end <= start likewise fails with an
InvalidInterval-class error. -/
theorem inverted_interval_rejected :
    (∀ (db : DB) (req : CreateReq) (today : Int), 0 ≤ req.totalCost →
      req.endDate ≤ req.startDate →
      ∃ err, createRental db req today = Except.error err ∧
        isInvalidInterval err = true) ∧
    (∀ (db : DB) (rid : Nat) (p : UpdateReq) (today : Int) (old : Rental),
      findRental db rid = some old →
      (p.startDate.isSome || p.endDate.isSome) = true →
      p.endDate.getD old.endDate ≤ p.startDate.getD old.startDate →
      ∃ err, updateRental db rid p today = Except.error err ∧
        isInvalidInterval err = true) := by
  constructor
  · intro db req today hcost hse
    by_cases hp : dayOf req.startDate < today
    · exact ⟨Err.pastStartDate,
        (createRental_error_iff _ _ _ _).mpr
          ((createCheck_past_iff _ _ _).mpr ⟨hcost, hp⟩), rfl⟩
    · exact ⟨Err.endNotAfterStart,
        (createRental_error_iff _ _ _ _).mpr
          ((createCheck_inverted_iff _ _ _).mpr
            ⟨hcost, by omega, hse⟩), rfl⟩
  · intro db rid p today old hf hd hse
    rcases updateDatesCheck_inverted db rid today hd hse with
      ⟨err, hdc, hinv⟩
    exact ⟨err, updateRental_error_of_datesCheck hf hdc, hinv⟩

/-- Witness for the amended C7 at a concrete inverted interval. -/
theorem inverted_interval_rejected_witness :
    ∃ err, createRental ⟨[⟨9, CarStatus.available⟩], [], 0⟩
        ⟨9, 1, 1, 48, 24, 5⟩ 0 = Except.error err ∧
      isInvalidInterval err = true :=
  inverted_interval_rejected.1 ⟨[⟨9, CarStatus.available⟩], [], 0⟩
    ⟨9, 1, 1, 48, 24, 5⟩ 0 (by decide) (by decide)

/-- Claim C8 counterexample: a create request whose start day (-1) is
before the server's current day (2) but whose totalCost is negative fails
with the cost-validation error instead of an InvalidInterval-class
error, because the cost check precedes the past-date check. -/
theorem past_start_error_kind_cex :
    createRental ⟨[⟨11, CarStatus.available⟩], [], 0⟩
        ⟨11, 1, 1, -24, 48, -3⟩ 2 = Except.error Err.invalidCost ∧
    dayOf (-24) < 2 ∧ isInvalidInterval Err.invalidCost = false :=
  ⟨rfl, by decide, rfl⟩

/-- Claim C8 (amended): provided totalCost is non-negative, a reservation
whose start falls on a calendar day before the server's current day fails
with the past-start error; on amendment the same check applies only while
the stored rental is ACTIVE, and for a non-ACTIVE rental the update's
outcome does not depend on the server's current day at all. -/
theorem past_start_day_check :
    (∀ (db : DB) (req : CreateReq) (today : Int), 0 ≤ req.totalCost →
      dayOf req.startDate < today →
      createRental db req today = Except.error Err.pastStartDate) ∧
    (∀ (db : DB) (rid : Nat) (p : UpdateReq) (today : Int) (old : Rental),
      findRental db rid = some old →
      (p.startDate.isSome || p.endDate.isSome) = true →
      old.status = RStatus.active →
      dayOf (p.startDate.getD old.startDate) < today →
      updateRental db rid p today = Except.error Err.pastStartDate) ∧
    (∀ (db : DB) (rid : Nat) (p : UpdateReq) (old : Rental) (t t' : Int),
      findRental db rid = some old → old.status ≠ RStatus.active →
      updateRental db rid p t = updateRental db rid p t') := by
  refine ⟨?_, ?_, ?_⟩
  · intro db req today hc hp
    exact (createRental_error_iff _ _ _ _).mpr
      ((createCheck_past_iff _ _ _).mpr ⟨hc, hp⟩)
  · intro db rid p today old hf hd hact hp
    refine updateRental_error_of_datesCheck hf ?_
    unfold updateDatesCheck
    simp only [hd, if_true]
    rw [if_pos ⟨hact, hp⟩]
  · intro db rid p old t t' hf hst
    exact updateRental_today_indep hf hst t t'

/-- Witness for the amended C8 at a concrete past start day. -/
theorem past_start_day_check_witness :
    createRental ⟨[⟨11, CarStatus.available⟩], [], 0⟩
      ⟨11, 1, 1, 0, 48, 5⟩ 3 = Except.error Err.pastStartDate :=
  past_start_day_check.1 ⟨[⟨11, CarStatus.available⟩], [], 0⟩
    ⟨11, 1, 1, 0, 48, 5⟩ 3 (by decide) (by decide)

/-- Claim C9: only ACTIVE bookings feed conflict evaluation: any Conflict
rejection of a create or update exhibits an ACTIVE overlapping booking on
the target car, and when no ACTIVE booking on the car overlaps (whatever
COMPLETED or CANCELLED bookings exist), a validated reservation
succeeds. -/
theorem only_active_bookings_conflict :
    (∀ (db : DB) (req : CreateReq) (today : Int),
      createRental db req today = Except.error Err.conflict →
      ∃ r ∈ db.rentals, r.car = req.car ∧ r.status = RStatus.active ∧
        overlapsQuery req.startDate req.endDate r = true) ∧
    (∀ (db : DB) (rid : Nat) (p : UpdateReq) (today : Int),
      updateRental db rid p today = Except.error Err.conflict →
      ∃ old, findRental db rid = some old ∧
        ∃ r ∈ db.rentals, r.id ≠ rid ∧ r.car = p.car.getD old.car ∧
          r.status = RStatus.active ∧
          overlapsQuery (p.startDate.getD old.startDate)
            (p.endDate.getD old.endDate) r = true) ∧
    (∀ (db : DB) (req : CreateReq) (today : Int) (car : Car),
      0 ≤ req.totalCost → today ≤ dayOf req.startDate →
      req.startDate < req.endDate → findCar db req.car = some car →
      car.status ≠ CarStatus.maintenance →
      (∀ r ∈ db.rentals, r.car = req.car → r.status = RStatus.active →
        overlapsQuery req.startDate req.endDate r = false) →
      ∃ x, createRental db req today = Except.ok x) := by
  refine ⟨?_, ?_, ?_⟩
  · intro db req today h
    have hc := (createRental_error_iff _ _ _ _).mp h
    have := (createCheck_conflict_iff _ _ _).mp hc
    exact findOverlapping_exists_none this.2.2.2.2
  · intro db rid p today h
    rcases (updateRental_error_conflict_iff _ _ _ _).mp h with
      ⟨old, hf, hdc⟩
    exact ⟨old, hf, findOverlapping_exists_some
      (updateDatesCheck_conflict_inv hdc)⟩
  · intro db req today car hcost hp hse hcar hav hno
    refine ⟨(createCommitState db req, mkRental db req), ?_⟩
    rw [createRental_ok_iff]
    refine ⟨?_, rfl⟩
    rw [createCheck_none_iff]
    exact ⟨hcost, hp, hse, ⟨car, hcar, hav⟩,
      findOverlapping_nil_of_no_active hno⟩

/-- Witness for C9: with only a CANCELLED booking occupying the same
interval on the car, the identical reservation succeeds. -/
theorem only_active_bookings_conflict_witness :
    ∃ x, createRental ⟨[⟨12, CarStatus.available⟩],
        [⟨0, 12, 1, 1, 0, 240, 10, RStatus.cancelled⟩], 1⟩
      ⟨12, 2, 2, 0, 240, 10⟩ 0 = Except.ok x :=
  only_active_bookings_conflict.2.2
    ⟨[⟨12, CarStatus.available⟩],
      [⟨0, 12, 1, 1, 0, 240, 10, RStatus.cancelled⟩], 1⟩
    ⟨12, 2, 2, 0, 240, 10⟩ 0 ⟨12, CarStatus.available⟩
    (by decide) (by decide) (by decide) rfl (by decide) (by decide)

/-- Claim C4 counterexample: rental 0 is amended to car 6 only (both
dates kept), while car 6 already holds an ACTIVE overlapping booking;
the amendment succeeds instead of failing with Conflict, because the
conflict scan runs only when a date is supplied. -/
theorem car_only_amend_skips_conflict_cex :
    updateRental ⟨[⟨5, CarStatus.available⟩, ⟨6, CarStatus.available⟩],
        [⟨0, 5, 1, 1, 120, 216, 10, RStatus.active⟩,
         ⟨1, 6, 1, 1, 120, 216, 10, RStatus.active⟩], 2⟩ 0
        ⟨some 6, none, none, none, none, none, none⟩ 0 =
      Except.ok (⟨[⟨5, CarStatus.available⟩, ⟨6, CarStatus.available⟩],
          [⟨0, 6, 1, 1, 120, 216, 10, RStatus.active⟩,
           ⟨1, 6, 1, 1, 120, 216, 10, RStatus.active⟩], 2⟩,
        ⟨0, 6, 1, 1, 120, 216, 10, RStatus.active⟩) ∧
    overlapsQuery 120 216 ⟨1, 6, 1, 1, 120, 216, 10, RStatus.active⟩
      = true :=
  ⟨rfl, by decide⟩

/-- Claim C4 (amended): the conflict evaluation on amendment runs exactly
when the patch supplies startDate or endDate; when it runs it targets the
patched car with the rental's own id excluded and rejects with Conflict
iff an overlapping other ACTIVE booking exists, and when no date is
supplied no Conflict rejection can occur at all. -/
theorem amend_conflict_only_when_dates_supplied (db : DB) (rid : Nat)
    (p : UpdateReq) (today : Int) (old : Rental)
    (hf : findRental db rid = some old) :
    ((p.startDate.isSome || p.endDate.isSome) = true →
      ¬(old.status = RStatus.active ∧
        dayOf (p.startDate.getD old.startDate) < today) →
      p.startDate.getD old.startDate < p.endDate.getD old.endDate →
      (updateRental db rid p today = Except.error Err.conflict ↔
        findOverlapping db (p.car.getD old.car)
          (p.startDate.getD old.startDate) (p.endDate.getD old.endDate)
          (some rid) ≠ [])) ∧
    (p.startDate = none → p.endDate = none →
      updateRental db rid p today ≠ Except.error Err.conflict) := by
  constructor
  · intro hd hpast hse
    rw [updateRental_error_conflict_iff]
    rw [← updateDatesCheck_conflict_iff db rid p old today hd hpast hse]
    constructor
    · rintro ⟨o, ho, hc⟩
      rw [hf] at ho
      have : old = o := Option.some.inj ho
      subst this
      exact hc
    · intro h
      exact ⟨old, hf, h⟩
  · intro hs1 hs2 h
    rcases (updateRental_error_conflict_iff _ _ _ _).mp h with
      ⟨o, ho, hc⟩
    rw [hf] at ho
    have : old = o := Option.some.inj ho
    subst this
    unfold updateDatesCheck at hc
    simp [hs1, hs2] at hc

/-- Witness for the amended C4: a date-supplied amendment colliding with
another ACTIVE booking on the target car is rejected with Conflict. -/
theorem amend_conflict_when_dates_supplied_witness :
    updateRental ⟨[⟨5, CarStatus.available⟩, ⟨6, CarStatus.available⟩],
        [⟨0, 5, 1, 1, 120, 216, 10, RStatus.active⟩,
         ⟨1, 6, 1, 1, 120, 216, 10, RStatus.active⟩], 2⟩ 0
      ⟨some 6, none, none, some 120, some 216, none, none⟩ 5 =
      Except.error Err.conflict :=
  ((amend_conflict_only_when_dates_supplied
      ⟨[⟨5, CarStatus.available⟩, ⟨6, CarStatus.available⟩],
        [⟨0, 5, 1, 1, 120, 216, 10, RStatus.active⟩,
         ⟨1, 6, 1, 1, 120, 216, 10, RStatus.active⟩], 2⟩ 0
      ⟨some 6, none, none, some 120, some 216, none, none⟩ 5
      ⟨0, 5, 1, 1, 120, 216, 10, RStatus.active⟩ rfl).1
    (by decide) (by decide) (by decide)).mpr (by decide)

/-- Claim C1 counterexample: starting from an empty store, two create
calls book cars 1 and 2 for the same dates (a conflict-free, reachable
state); a car-only update then moves booking 0 onto car 2 and succeeds,
leaving two ACTIVE overlapping bookings on car 2 — updateRental does not
preserve the invariant on resource (car) changes. -/
theorem invariant_not_preserved_cex :
    createRental ⟨[⟨1, CarStatus.available⟩, ⟨2, CarStatus.available⟩],
        [], 0⟩ ⟨1, 100, 200, 0, 240, 50⟩ 0 =
      Except.ok (⟨[⟨1, CarStatus.available⟩, ⟨2, CarStatus.available⟩],
          [⟨0, 1, 100, 200, 0, 240, 50, RStatus.active⟩], 1⟩,
        ⟨0, 1, 100, 200, 0, 240, 50, RStatus.active⟩) ∧
    createRental ⟨[⟨1, CarStatus.available⟩, ⟨2, CarStatus.available⟩],
        [⟨0, 1, 100, 200, 0, 240, 50, RStatus.active⟩], 1⟩
        ⟨2, 100, 200, 0, 240, 50⟩ 0 =
      Except.ok (⟨[⟨1, CarStatus.available⟩, ⟨2, CarStatus.available⟩],
          [⟨0, 1, 100, 200, 0, 240, 50, RStatus.active⟩,
           ⟨1, 2, 100, 200, 0, 240, 50, RStatus.active⟩], 2⟩,
        ⟨1, 2, 100, 200, 0, 240, 50, RStatus.active⟩) ∧
    conflictFree ⟨[⟨1, CarStatus.available⟩, ⟨2, CarStatus.available⟩],
        [⟨0, 1, 100, 200, 0, 240, 50, RStatus.active⟩,
         ⟨1, 2, 100, 200, 0, 240, 50, RStatus.active⟩], 2⟩ ∧
    updateRental ⟨[⟨1, CarStatus.available⟩, ⟨2, CarStatus.available⟩],
        [⟨0, 1, 100, 200, 0, 240, 50, RStatus.active⟩,
         ⟨1, 2, 100, 200, 0, 240, 50, RStatus.active⟩], 2⟩ 0
        ⟨some 2, none, none, none, none, none, none⟩ 0 =
      Except.ok (⟨[⟨1, CarStatus.available⟩, ⟨2, CarStatus.available⟩],
          [⟨0, 2, 100, 200, 0, 240, 50, RStatus.active⟩,
           ⟨1, 2, 100, 200, 0, 240, 50, RStatus.active⟩], 2⟩,
        ⟨0, 2, 100, 200, 0, 240, 50, RStatus.active⟩) ∧
    ¬ conflictFree ⟨[⟨1, CarStatus.available⟩, ⟨2, CarStatus.available⟩],
        [⟨0, 2, 100, 200, 0, 240, 50, RStatus.active⟩,
         ⟨1, 2, 100, 200, 0, 240, 50, RStatus.active⟩], 2⟩ :=
  ⟨rfl, rfl, by decide, rfl, by decide⟩

/-- Claim C1 (amended): on a well-formed store (distinct ids, fresh
nextId) the no-overlap invariant over ACTIVE bookings is preserved by
createRental, by deleteRental, and by every updateRental whose patch
supplies startDate or endDate; an update supplying neither (for example a
car-only or status-only patch) is not covered and can break it. -/
theorem invariant_preserved_except_undated_updates (db : DB)
    (hwf : wfDB db) (hcf : conflictFree db) :
    (∀ (req : CreateReq) (today : Int) (db' : DB) (r : Rental),
      createRental db req today = Except.ok (db', r) →
      conflictFree db' ∧ wfDB db') ∧
    (∀ (rid : Nat) (db' : DB) (r : Rental),
      deleteRental db rid = Except.ok (db', r) →
      conflictFree db' ∧ wfDB db') ∧
    (∀ (rid : Nat) (p : UpdateReq) (today : Int) (db' : DB) (r : Rental),
      (p.startDate.isSome || p.endDate.isSome) = true →
      updateRental db rid p today = Except.ok (db', r) →
      conflictFree db' ∧ wfDB db') :=
  ⟨fun _ _ _ _ h => conflictFree_create hwf hcf h,
   fun _ _ _ h => conflictFree_delete hwf hcf h,
   fun _ _ _ _ _ hd h => conflictFree_update_dates hwf hcf hd h⟩

/-- Witness for the amended C1: the state after a concrete successful
create is conflict-free and well-formed. -/
theorem invariant_preserved_witness :
    conflictFree (⟨[⟨1, CarStatus.available⟩],
        [⟨0, 1, 9, 9, 0, 48, 7, RStatus.active⟩], 1⟩ : DB) ∧
    wfDB ⟨[⟨1, CarStatus.available⟩],
        [⟨0, 1, 9, 9, 0, 48, 7, RStatus.active⟩], 1⟩ :=
  (invariant_preserved_except_undated_updates
      ⟨[⟨1, CarStatus.available⟩], [], 0⟩ (by decide) (by decide)).1
    ⟨1, 9, 9, 0, 48, 7⟩ 0
    ⟨[⟨1, CarStatus.available⟩], [⟨0, 1, 9, 9, 0, 48, 7, RStatus.active⟩], 1⟩
    ⟨0, 1, 9, 9, 0, 48, 7, RStatus.active⟩ rfl

/-- Claim C3: createRental is a separate overlap query followed by an
unconditional insert; two identical reserve calls interleaved
check-check-write-write both pass the overlap query against the initial
store and both commit, leaving two ACTIVE overlapping bookings on car 1,
whereas the serialized order rejects the second call with Conflict — the
check and the write are not atomic. -/
theorem check_then_write_race_double_books :
    createCheck ⟨[⟨1, CarStatus.available⟩], [], 0⟩
      ⟨1, 100, 200, 0, 240, 50⟩ 0 = none ∧
    createCheck ⟨[⟨1, CarStatus.available⟩], [], 0⟩
      ⟨1, 101, 201, 0, 240, 60⟩ 0 = none ∧
    createRental (createCommitState ⟨[⟨1, CarStatus.available⟩], [], 0⟩
        ⟨1, 100, 200, 0, 240, 50⟩) ⟨1, 101, 201, 0, 240, 60⟩ 0 =
      Except.error Err.conflict ∧
    ¬ conflictFree (createCommitState
        (createCommitState ⟨[⟨1, CarStatus.available⟩], [], 0⟩
          ⟨1, 100, 200, 0, 240, 50⟩) ⟨1, 101, 201, 0, 240, 60⟩) :=
  ⟨rfl, rfl, rfl, by decide⟩
